import Mathlib

set_option autoImplicit false

/-!
Shallow embedding of `src/utils/update_from_entities/sqla/async_updater.py`
(class `AsyncBulkUpdaterFromEntities`).

Modelling choices:
  * A table column (`sqlalchemy` column object) is a `Column`: its name, a
    tag for its SQL type, and its primary-key flag.
  * `model_class.__table__.columns` is an ordered mapping name -> column with
    distinct keys; it is embedded as a `List Column` in table order, and a
    dict lookup `columns[name]` is `findColumn` (fallible, hence `Option`).
  * `entity_class.model_fields` is the ordered list of the pydantic model's
    field names, embedded as `List String`.
  * An entity instance is a total valuation of field names (`getattr` on a
    pydantic instance), `Entity := String -> PyVal`; `PyVal.vnone` is
    Python's `None`.
  * The expression objects the code builds (`sa.and_`, `==`, `in_`,
    `sa.values`, `sa.update`) are embedded as first-order syntax trees
    (`SqlExpr`, `Values`, `UpdateStmt`), so theorems can speak about the
    exact shape of the generated statement.
  * `await session.execute(stmt)` is embedded by returning the list of
    (session id, statement) pairs the call executes; the session slot of the
    updater (set by `__call__`, absent before the first binding) is
    `Option Nat`, and executing with no bound session fails (`none`), the
    counterpart of the `AttributeError` the Python slot access raises.
  * Python `dict` comprehensions keyed by field names keep the first
    occurrence of each key; `dedupKeysAux` reproduces that for the
    caller-supplied `update_fields` iterable.
-/

namespace AsyncBulkUpdater

/-- Value of an entity field / of a cell handed to the database driver.
`vnone` is Python `None`; the other constructors are opaque non-`None`
payloads (the updater never inspects a non-`None` value). -/
inductive PyVal where
  | vnone
  | vint (n : Int)
  | vstr (s : String)
  | vbool (b : Bool)
  deriving DecidableEq, Repr

/-- One column of the mapped table: `sqlalchemy` column name, SQL type tag
(`field.type`), and the `primary_key` flag. -/
structure Column where
  name : String
  sqlType : String
  primary_key : Bool
  deriving DecidableEq, Repr

/-- An entity instance: a total valuation of its field names, the embedding
of `getattr(entity, field_name)` on a pydantic model instance. -/
def Entity : Type := String → PyVal

/-- Lookup of a column by name in an ordered column mapping: the embedding of
`columns[name]` / `name in columns` on the table's column dictionary. -/
def findColumn (cols : List Column) (field_name : String) : Option Column :=
  cols.find? (fun c => c.name == field_name)

/-- State of an `AsyncBulkUpdaterFromEntities` instance: the `__slots__` of
the class. `orm_model_fields` stands for `_model_class.__table__.columns`,
`entity_class_fields` for `_entity_class.model_fields`, and `session` is the
`_session` slot (`none` while the slot is still unset). -/
structure Updater where
  entity_class_fields : List String
  primary_fields : Option (List String)
  orm_model_fields : List Column
  primary_fields_by_name : List Column
  default_update_fields_by_name : List Column
  session : Option Nat
  deriving DecidableEq, Repr

/-- Embedding of `_is_primary_key`: with no explicit set, the column's own
`primary_key` flag decides; with an explicit set, membership of the name. -/
def is_primary_key (primary_fields : Option (List String)) (field_name : String)
    (field : Column) : Bool :=
  match primary_fields with
  | none => field.primary_key
  | some pf => pf.contains field_name

/-- Embedding of `AsyncBulkUpdaterFromEntities.__init__`: stores the two
schemas and the optional explicit key set, then computes the two cached
dictionaries `_primary_fields_by_name` and `_default_update_fields_by_name`
exactly once. The `_session` slot is left unset. No failure path exists. -/
def mkUpdater (orm_model_fields : List Column) (entity_class_fields : List String)
    (primary_fields : Option (List String)) : Updater :=
  let primary_fields_by_name : List Column :=
    orm_model_fields.filter (fun field => is_primary_key primary_fields field.name field)
  let default_update_fields_by_name : List Column :=
    entity_class_fields.filterMap (fun field_name =>
      if (findColumn orm_model_fields field_name).isSome
          && (findColumn primary_fields_by_name field_name).isNone
      then findColumn orm_model_fields field_name
      else none)
  { entity_class_fields := entity_class_fields
  , primary_fields := primary_fields
  , orm_model_fields := orm_model_fields
  , primary_fields_by_name := primary_fields_by_name
  , default_update_fields_by_name := default_update_fields_by_name
  , session := none }

/-- Embedding of `__call__(self, session)`: store the session in the
`_session` slot and return `self` — the same instance, its other slots
untouched. -/
def call (u : Updater) (session : Nat) : Updater :=
  { u with session := some session }

/-- First-occurrence key deduplication of a Python dict comprehension whose
keys are drawn from an iterable that may repeat a name. -/
def dedupKeysAux (seen : List String) : List String → List String
  | [] => []
  | k :: ks =>
    if seen.contains k then dedupKeysAux seen ks
    else k :: dedupKeysAux (k :: seen) ks

/-- Embedding of `_clear_update_fields`: `None` yields the cached default
mapping; an explicit iterable yields the dict comprehension keeping each
requested name that is not a key field and is a default update field,
valued by the cached default column, first occurrence first. -/
def clear_update_fields (u : Updater) (raw_update_fields : Option (List String)) :
    List Column :=
  match raw_update_fields with
  | none => u.default_update_fields_by_name
  | some fields =>
    (dedupKeysAux [] (fields.filter (fun field_name =>
        (findColumn u.primary_fields_by_name field_name).isNone
          && (findColumn u.default_update_fields_by_name field_name).isSome))).filterMap
      (fun field_name => findColumn u.default_update_fields_by_name field_name)

/-- One cell of the virtual `VALUES` row-set: either a plain value passed
through unchanged, or `sa.null().cast(field.type)` — an explicit `NULL`
cast to the named SQL type. -/
inductive CellVal where
  | val (v : PyVal)
  | nullCast (sqlType : String)
  deriving DecidableEq, Repr

/-- A column of the virtual row-set, `sa.column(field_name, field.type)`. -/
structure VColumn where
  name : String
  sqlType : String
  deriving DecidableEq, Repr

/-- The `sa.values(...).data(...)` object: its name, its ordered columns and
its data rows (one tuple per entity). -/
structure Values where
  name : String
  columns : List VColumn
  data : List (List CellVal)
  deriving DecidableEq, Repr

/-- Lookup of a row-set column by name: the embedding of
`getattr(values.c, name)` (fallible attribute access). -/
def findVColumn (cols : List VColumn) (field_name : String) : Option VColumn :=
  cols.find? (fun c => c.name == field_name)

/-- Sequencing of a fallible map over a list: the loop bodies of the Python
code, which raise out of the whole call as soon as one step raises. -/
def mapOption {α β : Type} (f : α → Option β) : List α → Option (List β)
  | [] => some []
  | a :: as =>
    match f a, mapOption f as with
    | some b, some bs => some (b :: bs)
    | _, _ => none

/-- One loop step of `_build_virtual_table_with_values_to_update`: read the
entity's value, look the column up in the table's columns, and replace a
`None` value by an explicit `NULL` cast to the column's type. -/
def build_cell (u : Updater) (entity : Entity) (field_name : String) : Option CellVal :=
  match findColumn u.orm_model_fields field_name with
  | none => none
  | some field =>
    match entity field_name with
    | PyVal.vnone => some (CellVal.nullCast field.sqlType)
    | v => some (CellVal.val v)

/-- The chained key order `chain(self._primary_fields_by_name.keys(), update_fields)`
used both for each data tuple and for the row-set columns. -/
def rowset_field_names (u : Updater) (update_fields : List Column) : List String :=
  u.primary_fields_by_name.map Column.name ++ update_fields.map Column.name

/-- Embedding of `_build_virtual_table_with_values_to_update`: one tuple per
entity, each tuple listing the entity's values for the primary-key fields
then the update fields, `None` values cast; the row-set is named
`new_data` with one `sa.column(name, type)` per chained field. -/
def build_virtual_table_with_values_to_update (u : Updater) (entities : List Entity)
    (update_fields : List Column) : Option Values :=
  match mapOption (fun entity =>
      mapOption (build_cell u entity) (rowset_field_names u update_fields)) entities with
  | none => none
  | some data_for_values =>
    some { name := "new_data"
         , columns := (u.primary_fields_by_name ++ update_fields).map
             (fun field => { name := field.name, sqlType := field.sqlType })
         , data := data_for_values }

/-- Boolean SQL expression tree as the code assembles it. -/
inductive SqlExpr where
  | eqLit (table_column : String) (v : PyVal)
  | eqValuesColumn (table_column : String) (values_column : String)
  | inList (table_column : String) (vals : List PyVal)
  | conj (exprs : List SqlExpr)

/-- Right-hand side of one SET assignment: a reference to a row-set column
(`getattr(new_data_values.c, name)`) or an entity value literal. -/
inductive SetExpr where
  | fromValuesColumn (values_column : String)
  | lit (v : PyVal)

/-- The `sa.update(...)` statement object: its WHERE clause, its ordered SET
assignments and, for the bulk path, the joined virtual row-set. -/
structure UpdateStmt where
  where_clause : SqlExpr
  assignments : List (String × SetExpr)
  values_table : Option Values

/-- Embedding of `_build_single_lookup_expr_for_table`: conjunction over the
key columns of `field == getattr(entity, field.key)`. -/
def build_single_lookup_expr_for_table (u : Updater) (entity : Entity) : SqlExpr :=
  SqlExpr.conj (u.primary_fields_by_name.map
    (fun field => SqlExpr.eqLit field.name (entity field.name)))

/-- Embedding of `_build_many_lookup_expr_for_table`: conjunction over the
key columns of `field.in_([entity values])`, in entity order. -/
def build_many_lookup_expr_for_table (u : Updater) (entities : List Entity) : SqlExpr :=
  SqlExpr.conj (u.primary_fields_by_name.map
    (fun field => SqlExpr.inList field.name
      (entities.map (fun entity => entity field.name))))

/-- Embedding of `_build_lookup_expr_for_join_table_and_values`: conjunction
over the key columns of `table_field == getattr(values.c, table_field.key)`;
the attribute access on `values.c` is fallible. -/
def build_lookup_expr_for_join_table_and_values (u : Updater) (values : Values) :
    Option SqlExpr :=
  (mapOption (fun table_field =>
      (findVColumn values.columns table_field.name).map
        (fun values_column => SqlExpr.eqValuesColumn table_field.name values_column.name))
    u.primary_fields_by_name).map SqlExpr.conj

/-- Embedding of `_build_update_statement`: WHERE is
`sa.and_(many_lookup, join_lookup)`; SET assigns each update field from the
row-set column of the same name. -/
def build_update_statement (u : Updater) (entities : List Entity)
    (update_fields : List Column) (new_data_values : Values) : Option UpdateStmt :=
  match build_lookup_expr_for_join_table_and_values u new_data_values,
      mapOption (fun field =>
        (findVColumn new_data_values.columns field.name).map
          (fun values_column => (field.name, SetExpr.fromValuesColumn values_column.name)))
      update_fields with
  | some join_expr, some assignments =>
    some { where_clause := SqlExpr.conj
            [build_many_lookup_expr_for_table u entities, join_expr]
         , assignments := assignments
         , values_table := some new_data_values }
  | _, _ => none

/-- Embedding of `update_from_entity`: clear the update fields, build the
single-row UPDATE with literal SET values, execute it on the bound session,
and return the entity unchanged. The result pairs the returned entity with
the list of (session id, statement) executions the call performed. -/
def update_from_entity (u : Updater) (entity : Entity)
    (update_fields : Option (List String)) : Option (Entity × List (Nat × UpdateStmt)) :=
  let fields := clear_update_fields u update_fields
  let stmt : UpdateStmt :=
    { where_clause := build_single_lookup_expr_for_table u entity
    , assignments := fields.map (fun field => (field.name, SetExpr.lit (entity field.name)))
    , values_table := none }
  match u.session with
  | none => none
  | some sid => some (entity, [(sid, stmt)])

/-- Embedding of `update_from_entities`: an empty batch returns `None` at
once with no statement; otherwise the virtual row-set and the single UPDATE
are built, executed once on the bound session, and the original list is
returned. The result pairs the Python return value with the list of
(session id, statement) executions the call performed. -/
def update_from_entities (u : Updater) (entities : List Entity)
    (update_fields : Option (List String)) :
    Option (Option (List Entity) × List (Nat × UpdateStmt)) :=
  if entities.length = 0 then some (none, [])
  else
    let fields := clear_update_fields u update_fields
    match build_virtual_table_with_values_to_update u entities fields with
    | none => none
    | some new_data_values =>
      match build_update_statement u entities fields new_data_values with
      | none => none
      | some stmt =>
        match u.session with
        | none => none
        | some sid => some (some entities, [(sid, stmt)])

/-! Concrete instances used by the closed witness and counterexample
theorems below: a three-column table keyed by `id`, and a table whose only
column carries no primary-key flag. -/

/-- Integer key column of the demonstration table. -/
def idColumn : Column := { name := "id", sqlType := "INTEGER", primary_key := true }

/-- Text data column of the demonstration table. -/
def statusColumn : Column := { name := "status", sqlType := "VARCHAR", primary_key := false }

/-- Numeric data column of the demonstration table. -/
def totalColumn : Column := { name := "total", sqlType := "NUMERIC", primary_key := false }

/-- Demonstration updater over the three-column table, keys auto-derived. -/
def demoUpdater : Updater :=
  mkUpdater [idColumn, statusColumn, totalColumn] ["id", "status", "total"] none

/-- A demonstration entity: `id = 1`, `status = "paid"`, `total = None`. -/
def demoEntity : Entity := fun field_name =>
  if field_name = "id" then PyVal.vint 1
  else if field_name = "status" then PyVal.vstr "paid"
  else PyVal.vnone

/-- A second demonstration entity: `id = 2`, `status = "failed"`, `total = 50`. -/
def demoEntity2 : Entity := fun field_name =>
  if field_name = "id" then PyVal.vint 2
  else if field_name = "status" then PyVal.vstr "failed"
  else PyVal.vint 50

/-- A column that carries no primary-key flag, for the empty-key-set
configuration. -/
def noKeyColumn : Column := { name := "a", sqlType := "INTEGER", primary_key := false }

/-! Helper lemmas about the lookup and traversal combinators. -/

theorem findColumn_name {cols : List Column} {field_name : String} {c : Column}
    (h : findColumn cols field_name = some c) : c.name = field_name := by
  have := List.find?_some h
  simpa using this

theorem findColumn_mem {cols : List Column} {field_name : String} {c : Column}
    (h : findColumn cols field_name = some c) : c ∈ cols :=
  List.mem_of_find?_eq_some h

theorem findColumn_isSome_iff {cols : List Column} {field_name : String} :
    (findColumn cols field_name).isSome ↔ ∃ c ∈ cols, c.name = field_name := by
  simp [findColumn, List.find?_isSome]

theorem findColumn_eq_none_iff {cols : List Column} {field_name : String} :
    findColumn cols field_name = none ↔ ∀ c ∈ cols, c.name ≠ field_name := by
  simp [findColumn, List.find?_eq_none]

theorem findVColumn_name {cols : List VColumn} {field_name : String} {c : VColumn}
    (h : findVColumn cols field_name = some c) : c.name = field_name := by
  have := List.find?_some h
  simpa using this

theorem findVColumn_isSome_iff {cols : List VColumn} {field_name : String} :
    (findVColumn cols field_name).isSome ↔ ∃ c ∈ cols, c.name = field_name := by
  simp [findVColumn, List.find?_isSome]

theorem mapOption_eq_some_iff {α β : Type} (f : α → Option β) :
    ∀ (l : List α) (l' : List β),
      mapOption f l = some l' ↔ List.Forall₂ (fun a b => f a = some b) l l'
  | [], l' => by
    constructor
    · intro h
      cases h
      exact List.Forall₂.nil
    · intro h
      cases h
      rfl
  | a :: as, l' => by
    constructor
    · intro h
      unfold mapOption at h
      rcases ha : f a with _ | b <;> rw [ha] at h
      · cases h
      · rcases has : mapOption f as with _ | bs <;> rw [has] at h
        · cases h
        · cases h
          exact List.Forall₂.cons ha ((mapOption_eq_some_iff f as bs).mp has)
    · intro h
      cases h with
      | cons hab htail =>
        unfold mapOption
        rw [hab, (mapOption_eq_some_iff f _ _).mpr htail]

theorem mapOption_map {α β : Type} (f : α → Option β) (g : α → β) (l : List α)
    (h : ∀ a ∈ l, f a = some (g a)) : mapOption f l = some (l.map g) := by
  rw [mapOption_eq_some_iff]
  induction l with
  | nil => exact List.Forall₂.nil
  | cons a as ih =>
    exact List.Forall₂.cons (h a (by simp))
      (ih (fun x hx => h x (List.mem_cons_of_mem a hx)))

theorem mapOption_isSome {α β : Type} (f : α → Option β) (l : List α)
    (h : ∀ a ∈ l, (f a).isSome) : (mapOption f l).isSome := by
  induction l with
  | nil => simp [mapOption]
  | cons a as ih =>
    have ha := h a (by simp)
    have has := ih (fun x hx => h x (List.mem_cons_of_mem a hx))
    unfold mapOption
    rcases hfa : f a with _ | b
    · rw [hfa] at ha; cases ha
    · rcases hfas : mapOption f as with _ | bs
      · rw [hfas] at has; cases has
      · simp

theorem forall₂_mem_right {α β : Type} {r : α → β → Prop} {l : List α} {l' : List β}
    (h : List.Forall₂ r l l') : ∀ b ∈ l', ∃ a ∈ l, r a b := by
  induction h with
  | nil => simp
  | cons hr _ ih =>
    intro b hb
    rcases List.mem_cons.mp hb with rfl | hb
    · exact ⟨_, List.mem_cons_self _ _, hr⟩
    · rcases ih b hb with ⟨a, ha, har⟩
      exact ⟨a, List.mem_cons_of_mem _ ha, har⟩

theorem mem_dedupKeysAux (x : String) :
    ∀ (l seen : List String), x ∈ dedupKeysAux seen l ↔ x ∈ l ∧ x ∉ seen
  | [], seen => by simp [dedupKeysAux]
  | k :: ks, seen => by
    by_cases hk : seen.contains k = true
    · rw [dedupKeysAux, if_pos hk, mem_dedupKeysAux x ks seen]
      constructor
      · rintro ⟨hxk, hxs⟩
        exact ⟨List.mem_cons_of_mem k hxk, hxs⟩
      · rintro ⟨hx, hxs⟩
        rcases List.mem_cons.mp hx with rfl | hx
        · exact absurd (by simpa using hk) hxs
        · exact ⟨hx, hxs⟩
    · rw [dedupKeysAux, if_neg hk]
      constructor
      · intro hx
        rcases List.mem_cons.mp hx with rfl | hx
        · exact ⟨List.mem_cons_self _ _, by simpa using hk⟩
        · rw [mem_dedupKeysAux x ks (k :: seen)] at hx
          obtain ⟨h1, h2⟩ := hx
          exact ⟨List.mem_cons_of_mem k h1, fun hs => h2 (List.mem_cons_of_mem k hs)⟩
      · rintro ⟨hx, hxs⟩
        rcases List.mem_cons.mp hx with rfl | hx
        · exact List.mem_cons_self _ _
        · by_cases hxk : x = k
          · subst hxk
            exact List.mem_cons_self _ _
          · refine List.mem_cons_of_mem k ?_
            rw [mem_dedupKeysAux x ks (k :: seen)]
            exact ⟨hx, fun hs => (List.mem_cons.mp hs).elim hxk hxs⟩

/-- Every column in the explicit-request path of `_clear_update_fields` was
requested by name, is no key column, and is the cached default column of
its name. -/
theorem mem_clear_update_fields_some {u : Updater} {requested : List String}
    {field : Column} (h : field ∈ clear_update_fields u (some requested)) :
    field.name ∈ requested
    ∧ findColumn u.primary_fields_by_name field.name = none
    ∧ findColumn u.default_update_fields_by_name field.name = some field := by
  unfold clear_update_fields at h
  rcases List.mem_filterMap.mp h with ⟨fn, hfn, hfind⟩
  have hname := findColumn_name hfind
  rw [mem_dedupKeysAux] at hfn
  obtain ⟨hfn, -⟩ := hfn
  rcases List.mem_filter.mp hfn with ⟨hreq, hcond⟩
  rw [Bool.and_eq_true, Option.isNone_iff_eq_none] at hcond
  subst hname
  exact ⟨hreq, hcond.1, hfind⟩

/-- Converse: a requested name that is no key column and has a cached
default column survives `_clear_update_fields`. -/
theorem mem_clear_update_fields_some_of {u : Updater} {requested : List String}
    {field_name : String} {field : Column} (hreq : field_name ∈ requested)
    (hpk : findColumn u.primary_fields_by_name field_name = none)
    (hduf : findColumn u.default_update_fields_by_name field_name = some field) :
    field ∈ clear_update_fields u (some requested) := by
  unfold clear_update_fields
  refine List.mem_filterMap.mpr ⟨field_name, ?_, hduf⟩
  rw [mem_dedupKeysAux]
  refine ⟨List.mem_filter.mpr ⟨hreq, ?_⟩, by simp⟩
  rw [Bool.and_eq_true, Option.isNone_iff_eq_none]
  exact ⟨hpk, by simp [hduf]⟩

theorem mkUpdater_primary_fields_by_name (orm_model_fields : List Column)
    (entity_class_fields : List String) (primary_fields : Option (List String)) :
    (mkUpdater orm_model_fields entity_class_fields primary_fields).primary_fields_by_name
      = orm_model_fields.filter
          (fun field => is_primary_key primary_fields field.name field) := rfl

theorem mkUpdater_default_update_fields (orm_model_fields : List Column)
    (entity_class_fields : List String) (primary_fields : Option (List String)) :
    (mkUpdater orm_model_fields entity_class_fields primary_fields).default_update_fields_by_name
      = entity_class_fields.filterMap (fun field_name =>
          if (findColumn orm_model_fields field_name).isSome
              && (findColumn (orm_model_fields.filter
                    (fun field => is_primary_key primary_fields field.name field))
                  field_name).isNone
          then findColumn orm_model_fields field_name
          else none) := rfl

/-- Behaviour of one virtual-table cell: a `None` entity value becomes an
explicit `NULL` cast to the looked-up column's declared type, any other
value is passed through unchanged, and no cell is ever an uncast `None`. -/
theorem build_cell_spec {u : Updater} {e : Entity} {fn : String} {cell : CellVal}
    (h : build_cell u e fn = some cell) :
    (e fn = PyVal.vnone →
      ∃ field, findColumn u.orm_model_fields fn = some field
        ∧ cell = CellVal.nullCast field.sqlType)
    ∧ (e fn ≠ PyVal.vnone → cell = CellVal.val (e fn))
    ∧ cell ≠ CellVal.val PyVal.vnone := by
  unfold build_cell at h
  split at h
  · cases h
  · rename_i field hfield
    rcases hv : e fn with _ | n | s | b <;> rw [hv] at h <;> cases h
    · exact ⟨fun _ => ⟨field, hfield, rfl⟩, fun hne => absurd rfl hne, by simp⟩
    · exact ⟨fun h0 => by simp at h0, fun _ => rfl, by simp⟩
    · exact ⟨fun h0 => by simp at h0, fun _ => rfl, by simp⟩
    · exact ⟨fun h0 => by simp at h0, fun _ => rfl, by simp⟩

/-- A successful virtual-table build fixes the row-set columns to the
chained primary-key and update-field columns. -/
theorem build_virtual_table_columns {u : Updater} {entities : List Entity}
    {update_fields : List Column} {new_data_values : Values}
    (h : build_virtual_table_with_values_to_update u entities update_fields
        = some new_data_values) :
    new_data_values.columns
      = (u.primary_fields_by_name ++ update_fields).map
          (fun field => ({ name := field.name, sqlType := field.sqlType } : VColumn)) := by
  unfold build_virtual_table_with_values_to_update at h
  split at h
  · cases h
  · cases h
    rfl

/-- A successful virtual-table build pairs each entity, in input order,
with the tuple of its cells in chained field order. -/
theorem build_virtual_table_data {u : Updater} {entities : List Entity}
    {update_fields : List Column} {new_data_values : Values}
    (h : build_virtual_table_with_values_to_update u entities update_fields
        = some new_data_values) :
    List.Forall₂ (fun entity row =>
        mapOption (build_cell u entity) (rowset_field_names u update_fields) = some row)
      entities new_data_values.data := by
  unfold build_virtual_table_with_values_to_update at h
  split at h
  · cases h
  · rename_i data hdata
    cases h
    exact (mapOption_eq_some_iff _ entities data).mp hdata

/-- Inversion of a successful non-empty bulk call: the virtual row-set and
the statement were built from the cleared update fields, a session was
bound, the input list is returned, and exactly the one statement was
executed on that session. -/
theorem update_from_entities_inv (u : Updater) (entities : List Entity)
    (update_fields : Option (List String)) (res : Option (List Entity))
    (log : List (Nat × UpdateStmt)) (hne : entities ≠ [])
    (h : update_from_entities u entities update_fields = some (res, log)) :
    ∃ new_data_values stmt sid,
      build_virtual_table_with_values_to_update u entities
          (clear_update_fields u update_fields) = some new_data_values
      ∧ build_update_statement u entities (clear_update_fields u update_fields)
          new_data_values = some stmt
      ∧ u.session = some sid
      ∧ res = some entities ∧ log = [(sid, stmt)] := by
  have hlen : ¬ entities.length = 0 := by simpa using hne
  simp only [update_from_entities, if_neg hlen] at h
  split at h
  · exact absurd h (by simp)
  · rename_i new_data_values hvt
    split at h
    · exact absurd h (by simp)
    · rename_i stmt hstmt
      split at h
      · exact absurd h (by simp)
      · rename_i sid hsid
        cases h
        exact ⟨new_data_values, stmt, sid, hvt, hstmt, hsid, rfl, rfl⟩

/-- C2: for the empty entity list, `update_from_entities` returns the
explicit `None` sentinel immediately; no statement is built and the
execution log is empty (zero database calls). -/
theorem claim2_empty_batch_returns_sentinel_and_executes_nothing
    (u : Updater) (update_fields : Option (List String)) :
    update_from_entities u [] update_fields = some (none, []) := rfl

/-- C3: every successful call of `update_from_entities` on a non-empty
entity list executes exactly one statement against the bound session,
whatever the batch size. -/
theorem claim3_nonempty_batch_executes_exactly_one_statement
    (u : Updater) (entities : List Entity) (update_fields : Option (List String))
    (res : Option (List Entity)) (log : List (Nat × UpdateStmt))
    (hne : entities ≠ [])
    (h : update_from_entities u entities update_fields = some (res, log)) :
    log.length = 1 := by
  obtain ⟨_, _, _, -, -, -, -, rfl⟩ :=
    update_from_entities_inv u entities update_fields res log hne h
  rfl

/-- Witness for C3: a concrete two-entity batch on the demonstration
updater succeeds and its execution log has length one. -/
theorem claim3_witness :
    ∃ res log,
      update_from_entities (call demoUpdater 7) [demoEntity, demoEntity2] none
          = some (res, log)
      ∧ log.length = 1 :=
  ⟨_, _, rfl, claim3_nonempty_batch_executes_exactly_one_statement
    (call demoUpdater 7) [demoEntity, demoEntity2] none _ _ (by simp) rfl⟩

/-- C9: on success the single-entity path returns the entity it was given
and the bulk path returns the original entity list unchanged. Entities are
values the embedding never rebuilds: the returned object is the argument
itself, so entity instances are only read, never mutated. -/
theorem claim9_pass_through (u : Updater) :
    (∀ (entity : Entity) (update_fields : Option (List String)) result,
        update_from_entity u entity update_fields = some result → result.1 = entity)
    ∧ (∀ (entities : List Entity) (update_fields : Option (List String)) res log,
        entities ≠ [] →
        update_from_entities u entities update_fields = some (res, log) →
        res = some entities) := by
  constructor
  · intro entity update_fields result h
    simp only [update_from_entity] at h
    split at h
    · exact absurd h (by simp)
    · cases h
      rfl
  · intro entities update_fields res log hne h
    obtain ⟨_, _, _, -, -, -, hres, -⟩ :=
      update_from_entities_inv u entities update_fields res log hne h
    exact hres

/-- Witness for C9: on the demonstration updater both paths hand back their
input objects. -/
theorem claim9_witness :
    ∃ result res log,
      update_from_entity (call demoUpdater 3) demoEntity none = some result
      ∧ result.1 = demoEntity
      ∧ update_from_entities (call demoUpdater 3) [demoEntity] none = some (res, log)
      ∧ res = some [demoEntity] :=
  ⟨_, _, _, rfl,
    (claim9_pass_through (call demoUpdater 3)).1 demoEntity none _ rfl,
    rfl,
    (claim9_pass_through (call demoUpdater 3)).2 [demoEntity] none _ _ (by simp) rfl⟩

/-- C10: binding a session via the call operator touches only the session
slot: all cached resolution slots and the stored schemas are unchanged, the
slot holds the new session, a second binding overwrites the first, and a
later successful bulk call executes its one statement against the most
recently bound session. The update methods never return a modified updater,
so they leave every slot, the resolution data included, unchanged. -/
theorem claim10_binding_mutates_only_session (u : Updater) (s : Nat) :
    (call u s).session = some s
    ∧ (call u s).primary_fields_by_name = u.primary_fields_by_name
    ∧ (call u s).default_update_fields_by_name = u.default_update_fields_by_name
    ∧ (call u s).orm_model_fields = u.orm_model_fields
    ∧ (call u s).entity_class_fields = u.entity_class_fields
    ∧ (call u s).primary_fields = u.primary_fields
    ∧ (∀ s', call (call u s) s' = call u s')
    ∧ (∀ (entities : List Entity) (update_fields : Option (List String)) res log,
        entities ≠ [] →
        update_from_entities (call u s) entities update_fields = some (res, log) →
        log.map Prod.fst = [s]) := by
  refine ⟨rfl, rfl, rfl, rfl, rfl, rfl, fun s' => rfl, ?_⟩
  intro entities update_fields res log hne h
  obtain ⟨_, _, sid, -, -, hsid, -, rfl⟩ :=
    update_from_entities_inv (call u s) entities update_fields res log hne h
  simp only [call] at hsid
  cases hsid
  rfl

/-- Witness for C10: rebinding the demonstration updater from session 3 to
session 9 leaves the resolution data unchanged and a later call executes
against session 9. -/
theorem claim10_witness :
    (call demoUpdater 9).primary_fields_by_name = demoUpdater.primary_fields_by_name
    ∧ call (call demoUpdater 3) 9 = call demoUpdater 9
    ∧ ∃ res log,
        update_from_entities (call (call demoUpdater 3) 9) [demoEntity] none
            = some (res, log)
        ∧ log.map Prod.fst = [9] :=
  ⟨(claim10_binding_mutates_only_session demoUpdater 9).2.1,
    ((claim10_binding_mutates_only_session demoUpdater 3).2.2.2.2.2.2.1 9),
    _, _, rfl,
    (claim10_binding_mutates_only_session (call demoUpdater 3) 9).2.2.2.2.2.2.2
      [demoEntity] none _ _ (by simp) rfl⟩

/-- Counterexample for C1: with a table whose columns carry no primary-key
flag and no explicit key set, the resolved key set is empty, yet
construction succeeds — the instance is silently created, and a bulk call
on it even executes a statement. No `ConfigurationError` exists in the
code. -/
theorem claim1_counterexample :
    (mkUpdater [noKeyColumn] ["a"] none).primary_fields_by_name = []
    ∧ (update_from_entities (call (mkUpdater [noKeyColumn] ["a"] none) 0)
        [fun _ => PyVal.vint 5] none).isSome = true :=
  ⟨rfl, rfl⟩

/-- C1 (amended): construction never fails; `mkUpdater` is total, stores
the supplied schemas with the session slot unset, and resolves an empty
primary-key set exactly when no column passes `_is_primary_key` — in that
case the instance is silently created with an empty key set. -/
theorem claim1_construction_never_fails (orm_model_fields : List Column)
    (entity_class_fields : List String) (primary_fields : Option (List String)) :
    (mkUpdater orm_model_fields entity_class_fields primary_fields).orm_model_fields
        = orm_model_fields
    ∧ (mkUpdater orm_model_fields entity_class_fields primary_fields).entity_class_fields
        = entity_class_fields
    ∧ (mkUpdater orm_model_fields entity_class_fields primary_fields).session = none
    ∧ ((mkUpdater orm_model_fields entity_class_fields primary_fields).primary_fields_by_name
          = []
        ↔ ∀ field ∈ orm_model_fields, is_primary_key primary_fields field.name field = false) := by
  refine ⟨rfl, rfl, rfl, ?_⟩
  simp only [mkUpdater]
  rw [List.filter_eq_nil_iff]
  simp

/-- C8: at construction time a row-schema column belongs to the resolved
key set iff its name is in the explicit key set when one is supplied,
otherwise iff its own primary-key flag is set; the default update fields
are exactly the columns whose names lie in both schemas and outside the key
set, so no name is ever in both sets. Both dictionaries are computed once
by the constructor, and the omitted-request path of `_clear_update_fields`
returns the cached dictionary itself. -/
theorem claim8_construction_time_resolution (orm_model_fields : List Column)
    (entity_class_fields : List String) (primary_fields : Option (List String)) :
    ((primary_fields = none →
        ∀ field, field ∈ (mkUpdater orm_model_fields entity_class_fields
              primary_fields).primary_fields_by_name
          ↔ field ∈ orm_model_fields ∧ field.primary_key = true)
      ∧ (∀ pf, primary_fields = some pf →
        ∀ field, field ∈ (mkUpdater orm_model_fields entity_class_fields
              primary_fields).primary_fields_by_name
          ↔ field ∈ orm_model_fields ∧ field.name ∈ pf))
    ∧ (∀ field_name,
        (∃ field ∈ (mkUpdater orm_model_fields entity_class_fields
              primary_fields).default_update_fields_by_name, field.name = field_name)
          ↔ field_name ∈ entity_class_fields
            ∧ (∃ field ∈ orm_model_fields, field.name = field_name)
            ∧ ¬ ∃ field ∈ (mkUpdater orm_model_fields entity_class_fields
                  primary_fields).primary_fields_by_name, field.name = field_name)
    ∧ (∀ field_name,
        ¬ ((∃ field ∈ (mkUpdater orm_model_fields entity_class_fields
                primary_fields).primary_fields_by_name, field.name = field_name)
            ∧ ∃ field ∈ (mkUpdater orm_model_fields entity_class_fields
                primary_fields).default_update_fields_by_name, field.name = field_name))
    ∧ clear_update_fields (mkUpdater orm_model_fields entity_class_fields primary_fields) none
        = (mkUpdater orm_model_fields entity_class_fields
            primary_fields).default_update_fields_by_name := by
  have hduf : ∀ field_name,
      (∃ field ∈ (mkUpdater orm_model_fields entity_class_fields
            primary_fields).default_update_fields_by_name, field.name = field_name)
        ↔ field_name ∈ entity_class_fields
          ∧ (∃ field ∈ orm_model_fields, field.name = field_name)
          ∧ ¬ ∃ field ∈ (mkUpdater orm_model_fields entity_class_fields
                primary_fields).primary_fields_by_name, field.name = field_name := by
    intro field_name
    rw [mkUpdater_default_update_fields, mkUpdater_primary_fields_by_name]
    constructor
    · rintro ⟨field, hmem, rfl⟩
      rcases List.mem_filterMap.mp hmem with ⟨fn, hfn, hg⟩
      split at hg
      · rename_i hcond
        rw [Bool.and_eq_true, Option.isNone_iff_eq_none] at hcond
        have hname := findColumn_name hg
        subst hname
        refine ⟨hfn, findColumn_isSome_iff.mp hcond.1, ?_⟩
        rw [findColumn_eq_none_iff] at hcond
        rintro ⟨c, hc, hcn⟩
        exact hcond.2 c hc hcn
      · cases hg
    · rintro ⟨hecf, hmf, hnpk⟩
      have hfs : (findColumn orm_model_fields field_name).isSome :=
        findColumn_isSome_iff.mpr hmf
      rcases Option.isSome_iff_exists.mp hfs with ⟨c, hc⟩
      have hpknone : findColumn (orm_model_fields.filter
          (fun field => is_primary_key primary_fields field.name field)) field_name = none := by
        rw [findColumn_eq_none_iff]
        intro d hd hdn
        exact hnpk ⟨d, hd, hdn⟩
      refine ⟨c, List.mem_filterMap.mpr ⟨field_name, hecf, ?_⟩, findColumn_name hc⟩
      rw [if_pos (by simp [hc, hpknone])]
      exact hc
  refine ⟨⟨?_, ?_⟩, hduf, ?_, rfl⟩
  · rintro rfl field
    rw [mkUpdater_primary_fields_by_name, List.mem_filter]
    simp [is_primary_key]
  · rintro pf rfl field
    rw [mkUpdater_primary_fields_by_name, List.mem_filter]
    simp [is_primary_key]
  · intro field_name
    rintro ⟨hpk, hd⟩
    exact ((hduf field_name).mp hd).2.2 hpk

/-- C4: `_clear_update_fields` with no request returns all cached default
update fields; with an explicit request it keeps exactly the requested
names that are default update fields and not key fields — requested key
fields and unknown names are silently dropped, no error path exists — and
consequently no key field is ever assigned in the SET clause of a built
statement, even when explicitly requested. -/
theorem claim4_update_field_filtering (u : Updater) :
    clear_update_fields u none = u.default_update_fields_by_name
    ∧ (∀ (requested : List String) (field_name : String),
        (∃ field ∈ clear_update_fields u (some requested), field.name = field_name)
          ↔ field_name ∈ requested
            ∧ (∃ field ∈ u.default_update_fields_by_name, field.name = field_name)
            ∧ ¬ ∃ field ∈ u.primary_fields_by_name, field.name = field_name)
    ∧ (∀ (requested : List String) (entities : List Entity) (new_data_values : Values)
          (stmt : UpdateStmt),
        build_update_statement u entities (clear_update_fields u (some requested))
            new_data_values = some stmt →
        ∀ a ∈ stmt.assignments,
          ¬ ∃ field ∈ u.primary_fields_by_name, field.name = a.1) := by
  refine ⟨rfl, ?_, ?_⟩
  · intro requested field_name
    constructor
    · rintro ⟨field, hmem, rfl⟩
      obtain ⟨hreq, hpk, hduf⟩ := mem_clear_update_fields_some hmem
      refine ⟨hreq, ⟨field, findColumn_mem hduf, rfl⟩, ?_⟩
      rw [findColumn_eq_none_iff] at hpk
      rintro ⟨c, hc, hcn⟩
      exact hpk c hc hcn
    · rintro ⟨hreq, hduf, hnpk⟩
      have hfs : (findColumn u.default_update_fields_by_name field_name).isSome :=
        findColumn_isSome_iff.mpr hduf
      rcases Option.isSome_iff_exists.mp hfs with ⟨c, hc⟩
      have hpknone : findColumn u.primary_fields_by_name field_name = none := by
        rw [findColumn_eq_none_iff]
        intro d hd hdn
        exact hnpk ⟨d, hd, hdn⟩
      exact ⟨c, mem_clear_update_fields_some_of hreq hpknone hc, findColumn_name hc⟩
  · intro requested entities new_data_values stmt h a ha
    unfold build_update_statement at h
    split at h
    · rename_i join_expr assignments hjoin hassign
      cases h
      rcases forall₂_mem_right ((mapOption_eq_some_iff _ _ _).mp hassign) a ha
        with ⟨field, hfield, hg⟩
      rcases Option.map_eq_some'.mp hg with ⟨vc, -, hvc⟩
      obtain ⟨-, hpk, -⟩ := mem_clear_update_fields_some hfield
      rw [findColumn_eq_none_iff] at hpk
      rintro ⟨c, hc, hcn⟩
      have : a.1 = field.name := by rw [← hvc]
      exact hpk c hc (hcn.trans this)
    · cases h

/-- C5: for a non-empty batch the virtual row-set's schema lists all
primary-key columns first — the key list is drawn from the row schema in
schema order whenever the updater comes from the constructor — followed by
the update-field columns in resolution order; the row-set holds one tuple
per entity, in input order, and each tuple's cells follow exactly the
schema's column order (the j-th cell is built from the j-th column's field
name). -/
theorem claim5_rowset_order (u : Updater) (entities : List Entity)
    (update_fields : List Column) (new_data_values : Values)
    (_hne : entities ≠ [])
    (h : build_virtual_table_with_values_to_update u entities update_fields
        = some new_data_values) :
    new_data_values.columns.map VColumn.name
        = u.primary_fields_by_name.map Column.name ++ update_fields.map Column.name
    ∧ new_data_values.data.length = entities.length
    ∧ List.Forall₂ (fun entity row =>
        List.Forall₂ (fun field_name cell => build_cell u entity field_name = some cell)
          (new_data_values.columns.map VColumn.name) row)
      entities new_data_values.data
    ∧ (∀ orm_model_fields entity_class_fields primary_fields,
        u = mkUpdater orm_model_fields entity_class_fields primary_fields →
        List.Sublist u.primary_fields_by_name orm_model_fields) := by
  have hcols : new_data_values.columns.map VColumn.name
      = u.primary_fields_by_name.map Column.name ++ update_fields.map Column.name := by
    rw [build_virtual_table_columns h]
    simp only [List.map_append, List.map_map]
    rfl
  have hdata := build_virtual_table_data h
  refine ⟨hcols, (hdata.length_eq).symm, ?_, ?_⟩
  · refine hdata.imp ?_
    intro entity row hrow
    have : List.Forall₂ (fun field_name cell => build_cell u entity field_name = some cell)
        (rowset_field_names u update_fields) row :=
      (mapOption_eq_some_iff _ _ _).mp hrow
    rw [hcols]
    exact this
  · rintro orm_model_fields entity_class_fields primary_fields rfl
    rw [mkUpdater_primary_fields_by_name]
    exact List.filter_sublist _

/-- Witness for C5 on a concrete two-entity batch with the demonstration
updater and its default update fields. -/
theorem claim5_witness :
    ∃ new_data_values,
      build_virtual_table_with_values_to_update demoUpdater [demoEntity, demoEntity2]
          demoUpdater.default_update_fields_by_name = some new_data_values
      ∧ (new_data_values.columns.map VColumn.name
            = demoUpdater.primary_fields_by_name.map Column.name
              ++ demoUpdater.default_update_fields_by_name.map Column.name
        ∧ new_data_values.data.length = [demoEntity, demoEntity2].length
        ∧ List.Forall₂ (fun entity row =>
            List.Forall₂ (fun field_name cell =>
                build_cell demoUpdater entity field_name = some cell)
              (new_data_values.columns.map VColumn.name) row)
          [demoEntity, demoEntity2] new_data_values.data
        ∧ (∀ orm_model_fields entity_class_fields primary_fields,
            demoUpdater = mkUpdater orm_model_fields entity_class_fields primary_fields →
            List.Sublist demoUpdater.primary_fields_by_name orm_model_fields)) :=
  ⟨_, rfl, claim5_rowset_order demoUpdater [demoEntity, demoEntity2]
    demoUpdater.default_update_fields_by_name _ (by simp) rfl⟩

/-- C6: in a successful virtual-table build, every cell whose entity value
is `None` is an explicit `NULL` cast to the declared SQL type of the
destination column looked up in the row schema — never an uncast `None` —
and every non-`None` value is inserted unchanged. -/
theorem claim6_null_values_cast_to_column_type (u : Updater) (entities : List Entity)
    (update_fields : List Column) (new_data_values : Values)
    (h : build_virtual_table_with_values_to_update u entities update_fields
        = some new_data_values) :
    List.Forall₂ (fun entity row =>
        List.Forall₂ (fun field_name cell =>
            (entity field_name = PyVal.vnone →
              ∃ field, findColumn u.orm_model_fields field_name = some field
                ∧ cell = CellVal.nullCast field.sqlType)
            ∧ (entity field_name ≠ PyVal.vnone → cell = CellVal.val (entity field_name))
            ∧ cell ≠ CellVal.val PyVal.vnone)
          (rowset_field_names u update_fields) row)
      entities new_data_values.data := by
  refine (build_virtual_table_data h).imp ?_
  intro entity row hrow
  refine ((mapOption_eq_some_iff _ _ _).mp hrow).imp ?_
  intro field_name cell hcell
  exact build_cell_spec hcell

/-- Witness for C6: in the demonstration batch the `total = None` value of
the first entity is cast to the `total` column's `NUMERIC` type. -/
theorem claim6_witness :
    ∃ new_data_values,
      build_virtual_table_with_values_to_update demoUpdater [demoEntity]
          demoUpdater.default_update_fields_by_name = some new_data_values
      ∧ List.Forall₂ (fun entity row =>
          List.Forall₂ (fun field_name cell =>
              (entity field_name = PyVal.vnone →
                ∃ field, findColumn demoUpdater.orm_model_fields field_name = some field
                  ∧ cell = CellVal.nullCast field.sqlType)
              ∧ (entity field_name ≠ PyVal.vnone → cell = CellVal.val (entity field_name))
              ∧ cell ≠ CellVal.val PyVal.vnone)
            (rowset_field_names demoUpdater demoUpdater.default_update_fields_by_name) row)
        [demoEntity] new_data_values.data
      ∧ new_data_values.data
          = [[CellVal.val (PyVal.vint 1), CellVal.val (PyVal.vstr "paid"),
              CellVal.nullCast "NUMERIC"]] :=
  ⟨_, rfl, claim6_null_values_cast_to_column_type demoUpdater [demoEntity]
    demoUpdater.default_update_fields_by_name _ rfl, rfl⟩

/-- C7: from any successfully built virtual row-set, the statement builder
succeeds and produces the single UPDATE whose WHERE clause is the
conjunction of the scoping filter — for every primary-key field, the
table column IN the list of all entities' values for that field — and the
join predicate — for every primary-key field, table column equals the
row-set column of the same name — and whose SET clause assigns every
resolved update field from the matching row-set column; every predicate
and column list ranges over the whole key list, one code path for single
and composite keys. -/
theorem claim7_where_and_set_shape (u : Updater) (entities : List Entity)
    (update_fields : List Column) (new_data_values : Values)
    (h : build_virtual_table_with_values_to_update u entities update_fields
        = some new_data_values) :
    ∃ stmt, build_update_statement u entities update_fields new_data_values = some stmt
      ∧ stmt.where_clause = SqlExpr.conj
          [ SqlExpr.conj (u.primary_fields_by_name.map (fun field =>
              SqlExpr.inList field.name
                (entities.map (fun entity => entity field.name))))
          , SqlExpr.conj (u.primary_fields_by_name.map (fun field =>
              SqlExpr.eqValuesColumn field.name field.name)) ]
      ∧ stmt.assignments = update_fields.map (fun field =>
          (field.name, SetExpr.fromValuesColumn field.name))
      ∧ stmt.values_table = some new_data_values := by
  have hcols := build_virtual_table_columns h
  have hfind : ∀ field ∈ u.primary_fields_by_name ++ update_fields,
      ∃ vc, findVColumn new_data_values.columns field.name = some vc
        ∧ vc.name = field.name := by
    intro field hf
    have hs : (findVColumn new_data_values.columns field.name).isSome := by
      rw [findVColumn_isSome_iff]
      exact ⟨{ name := field.name, sqlType := field.sqlType },
        by rw [hcols]; exact List.mem_map_of_mem _ hf, rfl⟩
    rcases Option.isSome_iff_exists.mp hs with ⟨vc, hvc⟩
    exact ⟨vc, hvc, findVColumn_name hvc⟩
  have hjoin : build_lookup_expr_for_join_table_and_values u new_data_values
      = some (SqlExpr.conj (u.primary_fields_by_name.map (fun field =>
          SqlExpr.eqValuesColumn field.name field.name))) := by
    unfold build_lookup_expr_for_join_table_and_values
    rw [mapOption_map _ (fun field => SqlExpr.eqValuesColumn field.name field.name) _ ?_]
    · rfl
    · intro field hf
      rcases hfind field (List.mem_append_left _ hf) with ⟨vc, hvc, hname⟩
      rw [hvc]
      simp [hname]
  have hassign : mapOption (fun field =>
      (findVColumn new_data_values.columns field.name).map
        (fun values_column => (field.name, SetExpr.fromValuesColumn values_column.name)))
      update_fields
      = some (update_fields.map (fun field =>
          (field.name, SetExpr.fromValuesColumn field.name))) := by
    apply mapOption_map
    intro field hf
    rcases hfind field (List.mem_append_right _ hf) with ⟨vc, hvc, hname⟩
    rw [hvc]
    simp [hname]
  have hstmt : build_update_statement u entities update_fields new_data_values
      = some (UpdateStmt.mk
          (SqlExpr.conj
            [ build_many_lookup_expr_for_table u entities
            , SqlExpr.conj (u.primary_fields_by_name.map (fun field =>
                SqlExpr.eqValuesColumn field.name field.name)) ])
          (update_fields.map (fun field =>
            (field.name, SetExpr.fromValuesColumn field.name)))
          (some new_data_values)) := by
    unfold build_update_statement
    rw [hjoin, hassign]
  exact ⟨_, hstmt, rfl, rfl, rfl⟩

/-- Witness for C7: the statement built for the demonstration batch has the
stated WHERE conjunction and SET assignments. -/
theorem claim7_witness :
    ∃ new_data_values stmt,
      build_virtual_table_with_values_to_update demoUpdater [demoEntity, demoEntity2]
          demoUpdater.default_update_fields_by_name = some new_data_values
      ∧ build_update_statement demoUpdater [demoEntity, demoEntity2]
          demoUpdater.default_update_fields_by_name new_data_values = some stmt
      ∧ stmt.where_clause = SqlExpr.conj
          [ SqlExpr.conj (demoUpdater.primary_fields_by_name.map (fun field =>
              SqlExpr.inList field.name
                ([demoEntity, demoEntity2].map (fun entity => entity field.name))))
          , SqlExpr.conj (demoUpdater.primary_fields_by_name.map (fun field =>
              SqlExpr.eqValuesColumn field.name field.name)) ]
      ∧ stmt.assignments = demoUpdater.default_update_fields_by_name.map (fun field =>
          (field.name, SetExpr.fromValuesColumn field.name)) := by
  rcases claim7_where_and_set_shape demoUpdater [demoEntity, demoEntity2]
      demoUpdater.default_update_fields_by_name _ rfl with ⟨stmt, hs, hw, ha, -⟩
  exact ⟨_, stmt, rfl, hs, hw, ha⟩

end AsyncBulkUpdater
